import Mathlib

/-!
Shallow embedding of the Sentinel distributed task system: the priority
dispatch queue and the worker retry/backoff loop.

Sources embedded here:
* src/common/models.py — the `Task` dataclass and its dict round-trip.
* src/common/redis_queue.py — the Redis sorted-set queue
  (`sentinel:task_queue`), the status hash (`sentinel:task_status`) and the
  stats helpers.
* src/worker/worker.py — the per-iteration resolution logic of
  `worker_loop` (success / retry-with-backoff / permanent failure).

Modelling conventions:
* A Python `int` is `Int`; `retries` is a non-negative count (created 0,
  only ever incremented), modelled as `Nat`; the `created_at` float UNIX
  timestamp is modelled as `ℚ`.
* The sorted set is a list of (member, score) pairs.  A member is the
  serialized task `json.dumps(task.to_dict())`; since a dataclass dict has
  a fixed field order, serialization is injective on tasks, so the member
  is modelled as the `Task` value itself.  `zadd` updates the score when
  the member is already present, otherwise adds the entry; `zpopmin`
  removes one lowest-score entry (score ties are broken by the store's
  member order, modelled here as list position); `zcard` is the length.
* The status hash is a list of (task id, status) pairs with `hset`
  overwrite semantics.
* The worker's executor (`execute_task`) flips a random coin; the model
  takes the boolean outcome as a parameter and quantifies over it.
-/

namespace Sentinel

/-- src/common/models.py: the `Task` dataclass.  `payload` is an opaque
JSON object (its entries, values kept as serialized text). -/
structure Task where
  id : String
  payload : List (String × String)
  priority : Int
  retries : Nat
  status : String
  created_at : ℚ
deriving DecidableEq, Repr

/-- src/worker/worker.py line 20: `MAX_RETRIES = 3`. -/
def MAX_RETRIES : Nat := 3

/-- src/common/redis_queue.py `_priority_score`:
`-(priority * 1_000_000) + created_at`. -/
def priority_score (priority : Int) (created_at : ℚ) : ℚ :=
  -((priority : ℚ) * 1000000) + created_at

/-- The Redis sorted set `sentinel:task_queue`: (member, score) entries. -/
abbrev SortedSet := List (Task × ℚ)

/-- Redis ZADD with a single member: update the member's score when it is
already in the set, otherwise add the entry. -/
def zadd (q : SortedSet) (member : Task) (score : ℚ) : SortedSet :=
  if q.any (fun e => e.1 = member) then
    q.map (fun e => if e.1 = member then (member, score) else e)
  else
    q ++ [(member, score)]

/-- One entry of least score (the first such in list position). -/
def minEntry : SortedSet → Option (Task × ℚ)
  | [] => none
  | e :: es =>
    match minEntry es with
    | none => some e
    | some m => if e.2 ≤ m.2 then some e else some m

/-- Redis ZPOPMIN with count 1: remove and return a lowest-score entry. -/
def zpopmin (q : SortedSet) : Option ((Task × ℚ) × SortedSet) :=
  match minEntry q with
  | none => none
  | some e => some (e, q.erase e)

/-- Redis HSET: overwrite the field when present, otherwise append it. -/
def hset (tbl : List (String × String)) (key val : String) :
    List (String × String) :=
  if tbl.any (fun e => e.1 = key) then
    tbl.map (fun e => if e.1 = key then (key, val) else e)
  else
    tbl ++ [(key, val)]

/-- Redis HGET. -/
def hget (tbl : List (String × String)) (key : String) : Option String :=
  (tbl.find? (fun e => e.1 = key)).map (fun e => e.2)

/-- The shared Redis store: the queue sorted set and the status hash. -/
structure RedisState where
  queue : SortedSet
  statusTable : List (String × String)
deriving DecidableEq, Repr

/-- A store with no queue entries and no status fields. -/
def emptyState : RedisState := { queue := [], statusTable := [] }

/-- src/common/redis_queue.py `enqueue_task`: zadd the serialized task at
its score, then hset the task's status under its id. -/
def enqueue_task (task : Task) (s : RedisState) : RedisState :=
  { queue := zadd s.queue task (priority_score task.priority task.created_at),
    statusTable := hset s.statusTable task.id task.status }

/-- src/common/redis_queue.py `dequeue_task`: zpopmin, `None` when empty,
else deserialize the popped member. -/
def dequeue_task (s : RedisState) : Option Task × RedisState :=
  match zpopmin s.queue with
  | none => (none, s)
  | some (e, q) => (some e.1, { s with queue := q })

/-- src/common/redis_queue.py `get_queue_size` (ZCARD). -/
def get_queue_size (s : RedisState) : Nat := s.queue.length

/-- src/common/redis_queue.py `mark_task_in_progress`.  (Defined in the
source but never called by any other source file.) -/
def mark_task_in_progress (task_id : String) (s : RedisState) : RedisState :=
  { s with statusTable := hset s.statusTable task_id "IN_PROGRESS" }

/-- src/common/redis_queue.py `mark_task_completed` (requires `task_id`). -/
def mark_task_completed (task_id : String) (s : RedisState) : RedisState :=
  { s with statusTable := hset s.statusTable task_id "COMPLETED" }

/-- src/common/redis_queue.py `mark_task_failed` (requires `task_id`). -/
def mark_task_failed (task_id : String) (s : RedisState) : RedisState :=
  { s with statusTable := hset s.statusTable task_id "FAILED" }

/-- src/common/redis_queue.py `get_task_status` (HGET). -/
def get_task_status (task_id : String) (s : RedisState) : Option String :=
  hget s.statusTable task_id

/-- The dict literal in src/common/redis_queue.py `get_all_status_counts`:
exactly the four keys "QUEUED", "IN_PROGRESS", "COMPLETED", "FAILED". -/
structure StatusCounts where
  queued : Nat
  in_progress : Nat
  completed : Nat
  failed : Nat
deriving DecidableEq, Repr

/-- One step of the counting loop in `get_all_status_counts`:
`if status in counts: counts[status] += 1` — a status outside the four
keys of the dict is ignored. -/
def countStatus (c : StatusCounts) (st : String) : StatusCounts :=
  if st = "QUEUED" then { c with queued := c.queued + 1 }
  else if st = "IN_PROGRESS" then { c with in_progress := c.in_progress + 1 }
  else if st = "COMPLETED" then { c with completed := c.completed + 1 }
  else if st = "FAILED" then { c with failed := c.failed + 1 }
  else c

/-- src/common/redis_queue.py `get_all_status_counts`: fold the counting
loop over HVALS of the status hash, starting from all-zero counts. -/
def get_all_status_counts (s : RedisState) : StatusCounts :=
  (s.statusTable.map (fun e => e.2)).foldl countStatus ⟨0, 0, 0, 0⟩

/-- The dict returned by src/common/redis_queue.py `get_stats`. -/
structure Stats where
  queue_size : Nat
  status_counts : StatusCounts
deriving DecidableEq, Repr

/-- src/common/redis_queue.py `get_stats`. -/
def get_stats (s : RedisState) : Stats :=
  { queue_size := get_queue_size s, status_counts := get_all_status_counts s }

/-- The wire form of a Task: a Python dict in which any field may be
absent (`from_dict` reads the optional ones with `.get` defaults). -/
structure TaskDict where
  id : Option String
  payload : Option (List (String × String))
  priority : Option Int
  retries : Option Nat
  status : Option String
  created_at : Option ℚ
deriving DecidableEq, Repr

/-- src/common/models.py `Task.to_dict` (dataclasses.asdict: every field
present). -/
def Task.to_dict (t : Task) : TaskDict :=
  { id := some t.id, payload := some t.payload, priority := some t.priority,
    retries := some t.retries, status := some t.status,
    created_at := some t.created_at }

/-- src/common/models.py `Task.from_dict`: `data["id"]` and
`data["created_at"]` raise KeyError when absent; `payload`, `priority`,
`retries`, `status` default to an empty dict, 0, 0, "pending". -/
def Task.from_dict (d : TaskDict) : Except String Task :=
  match d.id with
  | none => .error "KeyError: id"
  | some i =>
    match d.created_at with
    | none => .error "KeyError: created_at"
    | some c =>
      .ok { id := i, payload := d.payload.getD [], priority := d.priority.getD 0,
            retries := d.retries.getD 0, status := d.status.getD "pending",
            created_at := c }

/-- A Python exception escaping a worker iteration (the worker loop
catches only KeyboardInterrupt). -/
inductive PyError where
  | typeError (msg : String)
deriving DecidableEq, Repr

/-- A Python call of `mark_task_completed` with an explicit positional
argument list: the def takes one required argument, so any other arity
raises TypeError before the body runs. -/
def call_mark_task_completed (args : List String) (s : RedisState) :
    Except PyError RedisState :=
  match args with
  | [task_id] => .ok (mark_task_completed task_id s)
  | _ => .error (.typeError
      "mark_task_completed() missing 1 required positional argument: task_id")

/-- A Python call of `mark_task_failed` with an explicit positional
argument list (one required argument). -/
def call_mark_task_failed (args : List String) (s : RedisState) :
    Except PyError RedisState :=
  match args with
  | [task_id] => .ok (mark_task_failed task_id s)
  | _ => .error (.typeError
      "mark_task_failed() missing 1 required positional argument: task_id")

/-- Outcome of one worker-loop iteration after the executor ran: the store
afterwards, the worker's local task object, whether the task was
reinserted, the backoff `time.sleep` duration if any, and a Python error
escaping the iteration if any. -/
structure StepResult where
  state : RedisState
  task : Task
  reinserted : Bool
  delay : Option Nat
  error : Option PyError
deriving DecidableEq, Repr

/-- src/worker/worker.py `worker_loop` lines 79-110: resolution of one
claimed task given the executor's boolean result.  Mirrors the source line
by line: on success the worker sets `task.status = "COMPLETED"` and then
calls `mark_task_completed()` with NO argument; on failure it increments
`task.retries`, and either (retries > MAX_RETRIES) sets status "FAILED"
and calls `mark_task_failed()` with no argument, or sleeps
`delay = 2**task.retries`, calls `enqueue_task(task)` and only AFTERWARDS
sets `task.status = "REQUEUED"`. -/
def worker_resolve (s : RedisState) (task0 : Task) (success : Bool) :
    StepResult :=
  if success then
    let task := { task0 with status := "COMPLETED" }
    match call_mark_task_completed [] s with
    | .ok s2 =>
        { state := s2, task := task, reinserted := false, delay := none,
          error := none }
    | .error e =>
        { state := s, task := task, reinserted := false, delay := none,
          error := some e }
  else
    let task1 := { task0 with retries := task0.retries + 1 }
    if MAX_RETRIES < task1.retries then
      let task2 := { task1 with status := "FAILED" }
      match call_mark_task_failed [] s with
      | .ok s2 =>
          { state := s2, task := task2, reinserted := false, delay := none,
            error := none }
      | .error e =>
          { state := s, task := task2, reinserted := false, delay := none,
            error := some e }
    else
      let delay := 2 ^ task1.retries
      let s2 := enqueue_task task1 s
      let task2 := { task1 with status := "REQUEUED" }
      { state := s2, task := task2, reinserted := true, delay := some delay,
        error := none }

/-- Repeated `dequeue_task` calls: fuel-indexed drain of the queue (one
pop removes exactly one entry, so `q.length` pops drain it). -/
def drainFuel : Nat → SortedSet → List Task
  | 0, _ => []
  | n + 1, q =>
    match zpopmin q with
    | none => []
    | some (e, q2) => e.1 :: drainFuel n q2

/-- The sequence of tasks `dequeue_task` returns until the queue is empty. -/
def drain (q : SortedSet) : List Task := drainFuel q.length q

/-- The store after `enqueue_task` for each task of `ts` in order,
starting from an empty store. -/
def buildState (ts : List Task) : RedisState :=
  ts.foldl (fun s t => enqueue_task t s) emptyState

/-- Dispatch order the spec claims: non-increasing priority (strictly
descending across distinct priorities) and, within one priority,
non-decreasing `created_at` (FIFO). -/
def dequeueRel (a b : Task) : Prop :=
  b.priority < a.priority ∨
    (a.priority = b.priority ∧ a.created_at ≤ b.created_at)

instance (a b : Task) : Decidable (dequeueRel a b) := by
  unfold dequeueRel; infer_instance

/-- Trace of one task that is claimed and fails on every execution,
starting from an empty store: each cycle applies `worker_resolve` with
`success = false` to the claimed task and then claims the next task (the
reinserted entry) with `dequeue_task`. -/
def failRun (t0 : Task) : Nat → Option Task × RedisState
  | 0 => (some t0, emptyState)
  | n + 1 =>
    match failRun t0 n with
    | (some t, s) => dequeue_task (worker_resolve s t false).state
    | (none, s) => (none, s)

/-- The backoff delay slept in the Nth failing cycle of `failRun` — the
cycle that produces the Nth reinsertion while the task keeps failing. -/
def nthDelay (t0 : Task) : Nat → Option Nat
  | 0 => none
  | n + 1 =>
    match failRun t0 n with
    | (some t, s) => (worker_resolve s t false).delay
    | (none, _) => none

/-- The example tasks of the spec's end-to-end scenario: priorities
[1, 5, 1] at increasing timestamps. -/
def taskA : Task :=
  { id := "a", payload := [], priority := 1, retries := 0,
    status := "pending", created_at := 100 }

/-- Second example task (priority 5). -/
def taskB : Task :=
  { id := "b", payload := [], priority := 5, retries := 0,
    status := "pending", created_at := 101 }

/-- Third example task (priority 1, latest timestamp). -/
def taskC : Task :=
  { id := "c", payload := [], priority := 1, retries := 0,
    status := "pending", created_at := 102 }

/-- The submission sequence of the spec's end-to-end scenario. -/
def exampleTasks : List Task := [taskA, taskB, taskC]

/-- A freshly submitted task as src/main.py creates it: retries 0, status
"pending". -/
def pendingTask : Task :=
  { id := "t1", payload := [], priority := 0, retries := 0,
    status := "pending", created_at := 100 }

/-- A task that has already failed MAX_RETRIES - 1 = 2 times. -/
def boundaryTask : Task :=
  { id := "t1", payload := [], priority := 0, retries := MAX_RETRIES - 1,
    status := "pending", created_at := 100 }

/-- A fresh task used to trace repeated failures. -/
def freshTask : Task :=
  { id := "t0", payload := [], priority := 0, retries := 0,
    status := "pending", created_at := 0 }

lemma map_eq_self {α : Type} (l : List α) (f : α → α)
    (h : ∀ a ∈ l, f a = a) : l.map f = l := by
  induction l with
  | nil => rfl
  | cons x xs ih =>
    rw [List.map_cons, h x (by simp), ih (fun a ha => h a (by simp [ha]))]

lemma zadd_any (q : SortedSet) (t : Task) (sc : ℚ) :
    (zadd q t sc).any (fun e => e.1 = t) = true := by
  unfold zadd
  by_cases h : q.any (fun e => e.1 = t) = true
  · rw [if_pos h]
    rcases List.any_eq_true.1 h with ⟨e, he, hp⟩
    simp only [decide_eq_true_eq] at hp
    refine List.any_eq_true.2 ⟨(t, sc), List.mem_map.2 ⟨e, he, ?_⟩, by simp⟩
    simp [hp]
  · rw [if_neg h]
    exact List.any_eq_true.2 ⟨(t, sc), by simp, by simp⟩

lemma zadd_key_entry (q : SortedSet) (t : Task) (sc : ℚ) :
    ∀ e ∈ zadd q t sc, e.1 = t → e = (t, sc) := by
  unfold zadd
  split
  · intro e he het
    rcases List.mem_map.1 he with ⟨a, _, hae⟩
    by_cases h : a.1 = t
    · rw [if_pos h] at hae; exact hae.symm
    · rw [if_neg h] at hae; exact absurd (hae ▸ het) h
  · rename_i hq
    intro e he het
    rcases List.mem_append.1 he with h | h
    · exact absurd (List.any_eq_true.2 ⟨e, h, by simp [het]⟩) hq
    · simpa using h

lemma zadd_idem (q : SortedSet) (t : Task) (sc : ℚ) :
    zadd (zadd q t sc) t sc = zadd q t sc := by
  conv_lhs => rw [zadd]
  rw [if_pos (zadd_any q t sc)]
  refine map_eq_self _ _ (fun e he => ?_)
  by_cases h : e.1 = t
  · rw [if_pos h, zadd_key_entry q t sc e he h]
  · rw [if_neg h]

lemma hset_any (tbl : List (String × String)) (k v : String) :
    (hset tbl k v).any (fun e => e.1 = k) = true := by
  unfold hset
  by_cases h : tbl.any (fun e => e.1 = k) = true
  · rw [if_pos h]
    rcases List.any_eq_true.1 h with ⟨e, he, hp⟩
    simp only [decide_eq_true_eq] at hp
    refine List.any_eq_true.2 ⟨(k, v), List.mem_map.2 ⟨e, he, ?_⟩, by simp⟩
    simp [hp]
  · rw [if_neg h]
    exact List.any_eq_true.2 ⟨(k, v), by simp, by simp⟩

lemma hset_key_entry (tbl : List (String × String)) (k v : String) :
    ∀ e ∈ hset tbl k v, e.1 = k → e = (k, v) := by
  unfold hset
  split
  · intro e he het
    rcases List.mem_map.1 he with ⟨a, _, hae⟩
    by_cases h : a.1 = k
    · rw [if_pos h] at hae; exact hae.symm
    · rw [if_neg h] at hae; exact absurd (hae ▸ het) h
  · rename_i hq
    intro e he het
    rcases List.mem_append.1 he with h | h
    · exact absurd (List.any_eq_true.2 ⟨e, h, by simp [het]⟩) hq
    · simpa using h

lemma hset_idem (tbl : List (String × String)) (k v : String) :
    hset (hset tbl k v) k v = hset tbl k v := by
  conv_lhs => rw [hset]
  rw [if_pos (hset_any tbl k v)]
  refine map_eq_self _ _ (fun e he => ?_)
  by_cases h : e.1 = k
  · rw [if_pos h, hset_key_entry tbl k v e he h]
  · rw [if_neg h]

lemma enqueue_task_idem (t : Task) (s : RedisState) :
    enqueue_task t (enqueue_task t s) = enqueue_task t s := by
  unfold enqueue_task
  dsimp only
  rw [zadd_idem, hset_idem]

lemma enqueue_empty_queue (t : Task) :
    (enqueue_task t emptyState).queue =
      [(t, priority_score t.priority t.created_at)] := by
  simp [enqueue_task, emptyState, zadd]

/-- C9: serializing a Task to its wire form and deserializing it back
(`Task.from_dict (t.to_dict)`) succeeds and yields a Task equal to the
original in all six fields. -/
theorem C9_roundtrip (t : Task) : Task.from_dict t.to_dict = .ok t := rfl

/-- C10: `enqueue_task` is idempotent on identical tasks — ZADD keys the
sorted set by the serialized member, so the second identical insert only
rewrites the same entry's score, and two identical inserts into an empty
queue leave a queue of size 1. -/
theorem C10_enqueue_idempotent (t : Task) (s : RedisState) :
    enqueue_task t (enqueue_task t s) = enqueue_task t s ∧
      get_queue_size (enqueue_task t (enqueue_task t emptyState)) = 1 := by
  refine ⟨enqueue_task_idem t s, ?_⟩
  rw [get_queue_size, enqueue_task_idem t emptyState, enqueue_empty_queue]
  rfl

/-- C3: when the executor reports failure, the worker-loop step sets the
local task's status to "FAILED" and does not reinsert it exactly when
retries + 1 > MAX_RETRIES (retries counted before the failure), and
otherwise sets it to "REQUEUED" and reinserts it. -/
theorem C3_failure_transition (s : RedisState) (t : Task) :
    ((worker_resolve s t false).task.status = "FAILED" ∧
        (worker_resolve s t false).reinserted = false ↔
      MAX_RETRIES < t.retries + 1) ∧
    ((worker_resolve s t false).task.status = "REQUEUED" ∧
        (worker_resolve s t false).reinserted = true ↔
      t.retries + 1 ≤ MAX_RETRIES) := by
  by_cases h : MAX_RETRIES < t.retries + 1
  · simp [worker_resolve, call_mark_task_failed, h, Nat.not_le.2 h]
  · simp [worker_resolve, h, Nat.le_of_not_lt h]

/-- C7 (evaluation of the code at the failing input): the success path of
a worker iteration always raises TypeError — `mark_task_completed()` is
invoked without its required task_id argument — and so does the terminal
failure path via `mark_task_failed()`; only KeyboardInterrupt is caught
by `worker_loop`, so the error escapes and stops the loop, contrary to
the claim that the loop survives every task outcome. -/
theorem C7_iteration_raises (s : RedisState) (t : Task) :
    (worker_resolve s t true).error =
      some (.typeError
        "mark_task_completed() missing 1 required positional argument: task_id") ∧
    (MAX_RETRIES < t.retries + 1 →
      (worker_resolve s t false).error =
        some (.typeError
          "mark_task_failed() missing 1 required positional argument: task_id")) := by
  refine ⟨?_, fun h => ?_⟩
  · simp [worker_resolve, call_mark_task_completed]
  · simp [worker_resolve, call_mark_task_failed, h]

/-- C2 (evaluation of the code at the failing input): a task with
retries = MAX_RETRIES - 1 = 2 whose execution fails is NOT transitioned
to failed — the code increments retries to 3 and `3 > MAX_RETRIES` is
false, so the task is reinserted for a fourth attempt, contradicting the
claim (and the source's own comment that MAX_RETRIES = 3 means an initial
try plus 2 more). -/
theorem C2_boundary_requeued :
    (worker_resolve emptyState boundaryTask false).reinserted = true ∧
    (worker_resolve emptyState boundaryTask false).task.status = "REQUEUED" ∧
    (worker_resolve emptyState boundaryTask false).task.retries = MAX_RETRIES := by
  exact ⟨rfl, rfl, rfl⟩

/-- C4: for a fresh task (retries = 0) that fails on every attempt, the
backoff delay slept in the cycle producing the Nth reinsertion equals
2 ^ N — the code sleeps `2**task.retries` after the increment, so the
first retry waits 2 s, the second 4 s, the third 8 s.  After
N = MAX_RETRIES reinsertions the next failure is terminal. -/
theorem C4_backoff (t0 : Task) (h0 : t0.retries = 0) (N : Nat)
    (h1 : 1 ≤ N) (h2 : N ≤ MAX_RETRIES) :
    nthDelay t0 N = some (2 ^ N) := by
  rw [MAX_RETRIES] at h2
  interval_cases N
  · simp [nthDelay, failRun, worker_resolve, h0, MAX_RETRIES, emptyState]
  · simp [nthDelay, failRun, worker_resolve, h0, MAX_RETRIES, emptyState,
      dequeue_task, zpopmin, minEntry, enqueue_task, zadd, hset]
  · simp [nthDelay, failRun, worker_resolve, h0, MAX_RETRIES, emptyState,
      dequeue_task, zpopmin, minEntry, enqueue_task, zadd, hset]

/-- C4 witness: the fresh example task, third reinsertion: delay 8 s. -/
theorem C4_backoff_witness : nthDelay freshTask 3 = some (2 ^ 3) :=
  C4_backoff freshTask rfl 3 (by decide) (by decide)

lemma hget_hset_self (tbl : List (String × String)) (k v : String) :
    hget (hset tbl k v) k = some v := by
  unfold hget hset
  split
  · rename_i h
    induction tbl with
    | nil => simp at h
    | cons e es ih =>
      by_cases he : e.1 = k
      · simp [List.find?_cons, he]
      · rw [List.map_cons, if_neg he, List.find?_cons_of_neg _ (by simpa using he)]
        exact ih (by simpa [List.any_cons, he] using h)
  · rename_i h
    induction tbl with
    | nil => simp
    | cons e es ih =>
      have he : ¬(e.1 = k) := fun hk =>
        h (List.any_eq_true.2 ⟨e, by simp, by simp [hk]⟩)
      rw [List.cons_append, List.find?_cons_of_neg _ (by simpa using he)]
      exact ih (fun ha => h (by simpa [List.any_cons] using Or.inr (by simpa using ha)))

/-- C5 counterexample: a pending task with retries remaining fails; the
entry the worker reinserts carries status "pending", not "REQUEUED", and
the StatusTable is likewise left at "pending" — the assignment
`task.status = "REQUEUED"` happens only after `enqueue_task(task)`. -/
theorem C5_counterexample :
    ((worker_resolve emptyState pendingTask false).state.queue.map
        (fun e => e.1.status)) = ["pending"] ∧
    get_task_status "t1" (worker_resolve emptyState pendingTask false).state =
      some "pending" ∧
    ("pending" : String) ≠ "REQUEUED" := by
  exact ⟨rfl, rfl, by decide⟩

/-- C5 amended: on failure with retries remaining the reinserted entry is
the claimed task with retries incremented by one and id, payload,
priority, created_at unchanged, but the status it carries — and the
status `enqueue_task` publishes into the StatusTable — is the status the
task was claimed with, not "REQUEUED"; the worker's local task object is
set to "REQUEUED" only after the insert. -/
theorem C5_reinsertion_frame (s : RedisState) (t : Task)
    (h : t.retries + 1 ≤ MAX_RETRIES) :
    (worker_resolve s t false).state =
      enqueue_task { t with retries := t.retries + 1 } s ∧
    (worker_resolve s t false).task =
      { t with retries := t.retries + 1, status := "REQUEUED" } ∧
    get_task_status t.id (worker_resolve s t false).state = some t.status := by
  have hlt : ¬ MAX_RETRIES < t.retries + 1 := Nat.not_lt.2 h
  refine ⟨?_, ?_, ?_⟩
  · simp [worker_resolve, hlt]
  · simp [worker_resolve, hlt]
  · simp only [worker_resolve, if_neg hlt, Bool.false_eq_true, if_false]
    exact hget_hset_self s.statusTable t.id t.status

/-- C5 witness: the amended theorem at the concrete pending task. -/
theorem C5_reinsertion_frame_witness :
    (worker_resolve emptyState pendingTask false).state =
      enqueue_task { pendingTask with retries := pendingTask.retries + 1 }
        emptyState ∧
    (worker_resolve emptyState pendingTask false).task =
      { pendingTask with
          retries := pendingTask.retries + 1, status := "REQUEUED" } ∧
    get_task_status pendingTask.id
        (worker_resolve emptyState pendingTask false).state =
      some pendingTask.status :=
  C5_reinsertion_frame emptyState pendingTask (by decide)

/-- C6 counterexample: a freshly enqueued pending task is claimed
successfully, yet immediately after the claim the StatusTable entry for
its id still reads "pending", not "IN_PROGRESS" —
`mark_task_in_progress` has no caller in the repository. -/
theorem C6_counterexample :
    (dequeue_task (enqueue_task pendingTask emptyState)).1 = some pendingTask ∧
    get_task_status "t1"
        (dequeue_task (enqueue_task pendingTask emptyState)).2 =
      some "pending" ∧
    ("pending" : String) ≠ "IN_PROGRESS" := by
  exact ⟨rfl, rfl, by decide⟩

/-- C6 amended: a successful claim (`dequeue_task`) removes the task from
the queue but writes nothing to the StatusTable: the status stays
whatever was last published for the task (e.g. "pending"), and no
in_progress status is ever recorded. -/
theorem C6_claim_leaves_status (s : RedisState) :
    ((dequeue_task s).2).statusTable = s.statusTable := by
  unfold dequeue_task
  rcases h : zpopmin s.queue with _ | ⟨e, q⟩ <;> simp

lemma foldl_countStatus (l : List String) (c : StatusCounts) :
    l.foldl countStatus c =
      { queued := c.queued + l.count "QUEUED",
        in_progress := c.in_progress + l.count "IN_PROGRESS",
        completed := c.completed + l.count "COMPLETED",
        failed := c.failed + l.count "FAILED" } := by
  induction l generalizing c with
  | nil => simp
  | cons x xs ih =>
    rw [List.foldl_cons, ih]
    unfold countStatus
    by_cases h1 : x = "QUEUED"
    · subst h1
      simp [StatusCounts.mk.injEq, List.count_cons]
      omega
    · by_cases h2 : x = "IN_PROGRESS"
      · subst h2
        simp [StatusCounts.mk.injEq, List.count_cons]
        omega
      · by_cases h3 : x = "COMPLETED"
        · subst h3
          simp [StatusCounts.mk.injEq, List.count_cons]
          omega
        · by_cases h4 : x = "FAILED"
          · subst h4
            simp [StatusCounts.mk.injEq, List.count_cons]
            omega
          · simp [h1, h2, h3, h4, StatusCounts.mk.injEq, List.count_cons]

/-- C8 counterexample: a store holding exactly one StatusTable entry,
with status "pending" (what `enqueue_task` writes for a fresh
submission).  `get_stats` has no pending or requeued count at all — its
dict carries only the keys QUEUED, IN_PROGRESS, COMPLETED, FAILED — and
all four counts stay 0, so the single entry is counted under no status. -/
theorem C8_counterexample :
    (get_stats (enqueue_task pendingTask emptyState)).status_counts =
      { queued := 0, in_progress := 0, completed := 0, failed := 0 } ∧
    (enqueue_task pendingTask emptyState).statusTable.length = 1 := by
  exact ⟨rfl, rfl⟩

/-- C8 amended: `get_stats` returns the queue size together with counts
for exactly the four statuses "QUEUED", "IN_PROGRESS", "COMPLETED",
"FAILED"; each of these counts equals the number of StatusTable entries
bearing that status, and entries with any other status (such as
"pending" or "REQUEUED") are counted nowhere. -/
theorem C8_stats (s : RedisState) :
    (get_stats s).queue_size = s.queue.length ∧
    (get_stats s).status_counts =
      { queued := (s.statusTable.map (fun e => e.2)).count "QUEUED",
        in_progress := (s.statusTable.map (fun e => e.2)).count "IN_PROGRESS",
        completed := (s.statusTable.map (fun e => e.2)).count "COMPLETED",
        failed := (s.statusTable.map (fun e => e.2)).count "FAILED" } := by
  refine ⟨rfl, ?_⟩
  show (s.statusTable.map (fun e => e.2)).foldl countStatus ⟨0, 0, 0, 0⟩ = _
  rw [foldl_countStatus]
  simp

lemma minEntry_mem {q : SortedSet} : ∀ {e}, minEntry q = some e → e ∈ q := by
  induction q with
  | nil => intro e h; simp [minEntry] at h
  | cons x xs ih =>
    intro e h
    rw [minEntry] at h
    split at h
    · cases h; exact List.mem_cons_self x xs
    · rename_i m heq
      split at h
      · cases h; exact List.mem_cons_self x xs
      · cases h; exact List.mem_cons_of_mem x (ih heq)

lemma minEntry_eq_none {q : SortedSet} (h : minEntry q = none) : q = [] := by
  cases q with
  | nil => rfl
  | cons a as =>
    exfalso
    rw [minEntry] at h
    split at h
    · exact Option.noConfusion h
    · split at h <;> exact Option.noConfusion h

lemma minEntry_min {q : SortedSet} : ∀ {e}, minEntry q = some e →
    ∀ x ∈ q, e.2 ≤ x.2 := by
  induction q with
  | nil => intro e h; simp [minEntry] at h
  | cons a as ih =>
    intro e h x hx
    rw [minEntry] at h
    split at h
    · rename_i heq
      cases h
      rcases List.mem_cons.1 hx with rfl | hx
      · exact le_refl _
      · rw [minEntry_eq_none heq] at hx; simp at hx
    · rename_i m heq
      split at h
      · rename_i hle
        cases h
        rcases List.mem_cons.1 hx with rfl | hx
        · exact le_refl _
        · exact le_trans hle (ih heq x hx)
      · rename_i hnle
        cases h
        rcases List.mem_cons.1 hx with rfl | hx
        · exact le_of_not_le hnle
        · exact ih heq x hx

lemma zpopmin_spec {q q2 : SortedSet} {e : Task × ℚ}
    (h : zpopmin q = some (e, q2)) :
    e ∈ q ∧ q2 = q.erase e ∧ ∀ x ∈ q, e.2 ≤ x.2 := by
  unfold zpopmin at h
  split at h
  · exact Option.noConfusion h
  · rename_i m heq
    simp only [Option.some.injEq, Prod.mk.injEq] at h
    obtain ⟨rfl, rfl⟩ := h
    exact ⟨minEntry_mem heq, rfl, minEntry_min heq⟩

lemma drainFuel_mem {t : Task} :
    ∀ {n : Nat} {q : SortedSet}, t ∈ drainFuel n q → ∃ sc, (t, sc) ∈ q := by
  intro n
  induction n with
  | zero => intro q h; simp [drainFuel] at h
  | succ n ih =>
    intro q h
    rw [drainFuel] at h
    split at h
    · simp at h
    · rename_i e q2 heq
      obtain ⟨hmem, hq2, _⟩ := zpopmin_spec heq
      rcases List.mem_cons.1 h with rfl | h
      · exact ⟨e.2, hmem⟩
      · obtain ⟨sc, hsc⟩ := ih h
        rw [hq2] at hsc
        exact ⟨sc, List.mem_of_mem_erase hsc⟩

lemma score_le_rel {t1 t2 : Task}
    (hspan : |t1.created_at - t2.created_at| < 1000000)
    (hle : priority_score t1.priority t1.created_at ≤
      priority_score t2.priority t2.created_at) :
    dequeueRel t1 t2 := by
  unfold priority_score at hle
  unfold dequeueRel
  rcases lt_trichotomy t2.priority t1.priority with h | h | h
  · exact Or.inl h
  · refine Or.inr ⟨h.symm, ?_⟩
    rw [h] at hle
    linarith [hle]
  · exfalso
    have h1 : t1.priority + 1 ≤ t2.priority := h
    have h2 : ((t1.priority : ℚ)) + 1 ≤ (t2.priority : ℚ) := by exact_mod_cast h1
    have habs := abs_lt.1 hspan
    have h3 := mul_le_mul_of_nonneg_right h2 (show (0 : ℚ) ≤ 1000000 by norm_num)
    linarith [habs.1, habs.2, h3, hle]

lemma drainFuel_pairwise (ts : List Task)
    (hspan : ∀ t1 ∈ ts, ∀ t2 ∈ ts, |t1.created_at - t2.created_at| < 1000000) :
    ∀ (n : Nat) (q : SortedSet),
      (∀ t sc, (t, sc) ∈ q →
        sc = priority_score t.priority t.created_at ∧ t ∈ ts) →
      (drainFuel n q).Pairwise dequeueRel := by
  intro n
  induction n with
  | zero => intro q _; simp [drainFuel]
  | succ n ih =>
    intro q hq
    rw [drainFuel]
    split
    · simp
    · rename_i e q2 heq
      obtain ⟨hmem, hq2, hmin⟩ := zpopmin_spec heq
      have hsub : ∀ x ∈ q2, x ∈ q := by
        intro x hx
        rw [hq2] at hx
        exact List.mem_of_mem_erase hx
      refine List.Pairwise.cons ?_
        (ih q2 (fun t sc h => hq t sc (hsub (t, sc) h)))
      intro b hb
      obtain ⟨sc, hscb⟩ := drainFuel_mem hb
      have hbq : (b, sc) ∈ q := hsub (b, sc) hscb
      have h1 := hq e.1 e.2 hmem
      have h2 := hq b sc hbq
      have hle : priority_score e.1.priority e.1.created_at ≤
          priority_score b.priority b.created_at := by
        have h3 := hmin (b, sc) hbq
        rw [h1.1] at h3
        exact le_of_le_of_eq h3 h2.1
      exact score_le_rel (hspan e.1 h1.2 b h2.2) hle

lemma zadd_entry_cases {q : SortedSet} {t : Task} {sc : ℚ} {e : Task × ℚ}
    (h : e ∈ zadd q t sc) : e ∈ q ∨ e = (t, sc) := by
  unfold zadd at h
  split at h
  · rcases List.mem_map.1 h with ⟨a, ha, hae⟩
    by_cases hk : a.1 = t
    · rw [if_pos hk] at hae; exact Or.inr hae.symm
    · rw [if_neg hk] at hae; exact Or.inl (hae ▸ ha)
  · rcases List.mem_append.1 h with h | h
    · exact Or.inl h
    · exact Or.inr (by simpa using h)

lemma foldl_enqueue_inv (full : List Task) :
    ∀ (ts : List Task), (∀ t ∈ ts, t ∈ full) →
      ∀ (s : RedisState),
      (∀ t sc, (t, sc) ∈ s.queue →
        sc = priority_score t.priority t.created_at ∧ t ∈ full) →
      ∀ t sc, (t, sc) ∈ (ts.foldl (fun a x => enqueue_task x a) s).queue →
        sc = priority_score t.priority t.created_at ∧ t ∈ full := by
  intro ts
  induction ts with
  | nil => intro _ s hs t sc h; exact hs t sc h
  | cons x xs ih =>
    intro hts s hs t sc h
    rw [List.foldl_cons] at h
    refine ih (fun a ha => hts a (List.mem_cons_of_mem x ha))
      (enqueue_task x s) ?_ t sc h
    intro t0 sc0 h0
    simp only [enqueue_task] at h0
    rcases zadd_entry_cases h0 with h0 | h0
    · exact hs t0 sc0 h0
    · simp only [Prod.mk.injEq] at h0
      obtain ⟨rfl, rfl⟩ := h0
      exact ⟨rfl, hts t0 (List.mem_cons_self t0 xs)⟩

/-- C1: when all inserted tasks have created_at timestamps within a span
below 10^6 seconds, repeated `dequeue_task` calls return tasks in
non-increasing priority order — strictly descending across distinct
priorities — and, within equal priority, in non-decreasing created_at
order (FIFO): the queue pops the minimum of
score = -(priority * 1000000) + created_at. -/
theorem C1_dequeue_order (ts : List Task)
    (hspan : ∀ t1 ∈ ts, ∀ t2 ∈ ts, |t1.created_at - t2.created_at| < 1000000) :
    (drain (buildState ts).queue).Pairwise dequeueRel := by
  unfold drain
  refine drainFuel_pairwise ts hspan _ _ (fun t sc h => ?_)
  refine foldl_enqueue_inv ts ts (fun a ha => ha) emptyState ?_ t sc ?_
  · intro t0 sc0 h0
    simp [emptyState] at h0
  · simpa [buildState] using h

/-- C1 witness: the spec's end-to-end scenario — priorities [1, 5, 1] at
timestamps 100, 101, 102 — satisfies the span bound, and the theorem
yields the dispatch ordering for it. -/
theorem C1_dequeue_order_witness :
    (∀ t1 ∈ exampleTasks, ∀ t2 ∈ exampleTasks,
      |t1.created_at - t2.created_at| < 1000000) ∧
    (drain (buildState exampleTasks).queue).Pairwise dequeueRel := by
  have hspan : ∀ t1 ∈ exampleTasks, ∀ t2 ∈ exampleTasks,
      |t1.created_at - t2.created_at| < 1000000 := by
    intro t1 h1 t2 h2
    simp only [exampleTasks, List.mem_cons, List.not_mem_nil, or_false] at h1 h2
    rcases h1 with rfl | rfl | rfl <;> rcases h2 with rfl | rfl | rfl <;>
      norm_num [taskA, taskB, taskC, abs_sub_lt_iff]
  exact ⟨hspan, C1_dequeue_order exampleTasks hspan⟩

end Sentinel
